import Mathlib

/-!
Verification of the dmipy acquisition-scheme core: shell classification,
unit conversion, scheme construction and validation, dipy gradient-table
import, and Camino-style schemefile export/import.

The repository material under src/ consists of tutorial notebooks that
call into `dmipy.core.acquisition_scheme`; the module itself is not part
of the visible sources, so the definitions below are modelled from the
specification of those components.  Exact rational arithmetic stands in
for the floating-point arrays of the original code, and real numbers are
used where a square root is required; "within floating tolerance" claims
become exact equalities over this idealised model.
-/

namespace Dmipy

/-- A gradient direction, a vector in 3-space with rational components. -/
def Vec3 : Type := ℚ × ℚ × ℚ

instance : DecidableEq Vec3 := by
  unfold Vec3
  infer_instance

/-- Squared Euclidean norm of a direction vector. -/
def sqnorm (v : Vec3) : ℚ := v.1 * v.1 + v.2.1 * v.2.1 + v.2.2 * v.2.2

/-- Modelled from the spec: tolerance on the (squared) norm of a gradient
direction; directions of nonzero-bvalue measurements must be unit norm
within this tolerance (spec section 8 gives tolerance 1e-6 on the norm). -/
def unitNormTol : ℚ := 1 / 1000000

/-- A direction is unit-norm within tolerance: its squared norm deviates
from 1 by at most the tolerance in either direction. -/
def isUnitNorm (v : Vec3) : Bool :=
  decide (sqnorm v - 1 ≤ unitNormTol ∧ 1 - sqnorm v ≤ unitNormTol)

/-- Modelled from the spec: the absolute epsilon below which a bvalue (in
SI units, s/m^2) counts as a b0 measurement; the default tolerance is
scaled to SI b-value magnitude (spec section 4.2, step 1). -/
def b0Eps : ℚ := 10000000

/-- Modelled from the spec: the shell-clustering tolerance (in SI units,
s/m^2): a new shell starts whenever the next sorted bvalue deviates from
the running shell by more than this (spec section 4.2, step 2). -/
def shellTol : ℚ := 50000000

/-- A bvalue counts as b0 when it is within an absolute epsilon of zero. -/
def isB0 (eps b : ℚ) : Bool := decide (-eps ≤ b ∧ b ≤ eps)

/-- Modelled from the spec (ShellClassifier, step 2 preamble): the DWI
bvalues — those not within epsilon of zero — sorted ascending. -/
def sortedDWI (eps : ℚ) (bvals : List ℚ) : List ℚ :=
  List.insertionSort (· ≤ ·) (bvals.filter (fun b => ! isB0 eps b))

/-- Modelled from the spec (ShellClassifier, step 2): single-linkage-style
threshold scan over the sorted bvalue sequence; start a new shell whenever
the next value deviates from the running shell by more than
the tolerance. -/
def clusterShells (tol : ℚ) : List ℚ → List (List ℚ)
  | [] => []
  | b :: rest =>
    match clusterShells tol rest with
    | [] => [[b]]
    | [] :: cs => [b] :: cs
    | (b2 :: c) :: cs =>
      if b2 - b ≤ tol then (b :: b2 :: c) :: cs else [b] :: (b2 :: c) :: cs

/-- Membership test of a bvalue in a shell cluster. -/
def inCluster (b : ℚ) (c : List ℚ) : Bool := c.any (fun x => decide (x = b))

/-- Modelled from the spec (ShellClassifier, step 3): shell index of one
bvalue — 0 for b0 measurements, otherwise 1 plus the position of the
cluster holding the value, clusters in ascending bvalue order. -/
def shell_index_of (eps tol : ℚ) (bvals : List ℚ) (b : ℚ) : ℕ :=
  if isB0 eps b then 0
  else 1 + (clusterShells tol (sortedDWI eps bvals)).findIdx (inCluster b)

/-- Modelled from the spec (ShellClassifier): the shell_index array, a
deterministic function of the bvalue array alone. -/
def shell_indices (eps tol : ℚ) (bvals : List ℚ) : List ℕ :=
  let cs := clusterShells tol (sortedDWI eps bvals)
  bvals.map (fun b => if isB0 eps b then 0 else 1 + cs.findIdx (inCluster b))

/-- The HCP WU-MINN bvalue array used throughout the tutorial: 288
measurements, 18 exact zeros plus shells at nominal 1e9, 2e9 and 3e9
s/m^2, 90 measurements each. -/
def hcpBvalues : List ℚ :=
  List.replicate 18 0 ++ List.replicate 90 1000000000 ++
  List.replicate 90 2000000000 ++ List.replicate 90 3000000000

/-- Number of measurements assigned a given shell index. -/
def shellCount (k : ℕ) (idxs : List ℕ) : ℕ := idxs.count k

/-- Modelled from the spec (section 7): the error taxonomy of the
acquisition-scheme component; every error carries a field-naming
message. -/
inductive SchemeError where
  | validationError (msg : String)
  | domainError (msg : String)
  | incompleteAcquisitionError (msg : String)
  | missingFieldError (msg : String)
deriving DecidableEq

def lengthMismatchMsg : String :=
  "bvalues, gradient directions and TE must have the same length"

def nonUnitMsg : String :=
  "gradient directions of DWI measurements must be unit length"

def negativeBvalueMsg : String :=
  "bvalues must be non-negative"

def timingMissingMsg : String :=
  "delta and Delta must both be supplied"

def nonPhysicalTimingMsg : String :=
  "Delta must be larger than delta over 3"

def incompleteGtabMsg : String :=
  "small_delta and big_delta must both be set in the gradient table"

def missingTimingExportMsg : String :=
  "cannot write a schemefile without delta and Delta"

def emptySchemefileMsg : String :=
  "schemefile contains no measurement rows"

/-- The water gyromagnetic ratio constant of the toolbox,
267.513e6 rad per second per tesla. -/
def waterGamma : ℚ := 267513000

/-- Modelled from the spec (UnitConverter 4.1): the gradient strength
derived from a bvalue and valid timing,
G = sqrt (b / (gamma^2 delta^2 (Delta - delta/3))); defined as 0 for
bvalue 0. -/
noncomputable def bvalue_to_gradient_strength_val (b d D g : ℝ) : ℝ :=
  if b = 0 then 0 else Real.sqrt (b / (g ^ 2 * d ^ 2 * (D - d / 3)))

/-- The inverse formula of 4.1: the bvalue determined by a gradient
strength and timing, b = gamma^2 delta^2 G^2 (Delta - delta/3). -/
noncomputable def gradient_strength_to_bvalue (G d D g : ℝ) : ℝ :=
  g ^ 2 * d ^ 2 * G ^ 2 * (D - d / 3)

/-- Modelled from the spec (UnitConverter 4.1):
q = gamma delta G / (2 pi). -/
noncomputable def gradient_strength_to_qvalue (G d g : ℝ) : ℝ :=
  g * d * G / (2 * Real.pi)

/-- Modelled from the spec (UnitConverter 4.1): the effective diffusion
time tau = Delta - delta/3. -/
def diffusion_time (d D : ℚ) : ℚ := D - d / 3

/-- Modelled from the spec: the domain check of the unit converter; both
timing parameters must be supplied and Delta must exceed delta/3,
otherwise a DomainError is raised. -/
def checkTiming (delta bigDelta : Option ℚ) : Except SchemeError (ℚ × ℚ) :=
  match delta, bigDelta with
  | some d, some D =>
    if D ≤ d / 3 then .error (.domainError nonPhysicalTimingMsg)
    else .ok (d, D)
  | _, _ => .error (.domainError timingMissingMsg)

/-- Modelled from the spec (4.1): bvalue_to_gradient_strength over
optional timing; fails with DomainError outside the documented domain and
never returns a sentinel value. -/
noncomputable def bvalue_to_gradient_strength (b : ℝ)
    (delta bigDelta : Option ℚ) (g : ℝ) : Except SchemeError ℝ :=
  match checkTiming delta bigDelta with
  | .error e => .error e
  | .ok (d, D) => .ok (bvalue_to_gradient_strength_val b (d : ℝ) (D : ℝ) g)

/-- Modelled from the spec (AcquisitionScheme data model): the validated
immutable aggregate of parallel per-measurement arrays; timing is
scheme-wide and optional, TE optional per-row; shell_indices are assigned
by the ShellClassifier at construction. -/
structure Scheme where
  bvalues : List ℚ
  gradient_directions : List Vec3
  delta : Option ℚ
  bigDelta : Option ℚ
  TE : Option (List ℚ)
  shell_indices : List ℕ
deriving DecidableEq

/-- All parallel arrays of the raw input have equal length. -/
def lengthsOk (bvals : List ℚ) (dirs : List Vec3) (te : Option (List ℚ)) : Bool :=
  bvals.length == dirs.length &&
    (match te with
     | none => true
     | some t => t.length == bvals.length)

/-- Every direction belonging to a nonzero bvalue is unit norm within
tolerance; zero-bvalue directions are exempt. -/
def dirsOk (bvals : List ℚ) (dirs : List Vec3) : Bool :=
  (bvals.zip dirs).all (fun p => decide (p.1 = 0) || isUnitNorm p.2)

/-- Every bvalue is non-negative. -/
def bvalsOk (bvals : List ℚ) : Bool :=
  bvals.all (fun b => decide (0 ≤ b))

/-- Modelled from the spec (AcquisitionScheme 4.3, construction from raw
arrays; the module itself is absent from the visible sources): validates
array-length equality, direction unit-norm and non-negative bvalues in
that order, raising a ValidationError specific to the violated invariant;
checks the timing domain whenever timing is supplied; runs the
ShellClassifier; never repairs its input. -/
def acquisition_scheme_core (bvals : List ℚ) (dirs : List Vec3)
    (delta bigDelta : Option ℚ) (te : Option (List ℚ)) :
    Except SchemeError Scheme :=
  if lengthsOk bvals dirs te then
    if dirsOk bvals dirs then
      if bvalsOk bvals then
        match delta, bigDelta with
        | none, none =>
          .ok ⟨bvals, dirs, none, none, te, shell_indices b0Eps shellTol bvals⟩
        | od, oD =>
          match checkTiming od oD with
          | .error e => .error e
          | .ok (d, D) =>
            .ok ⟨bvals, dirs, some d, some D, te,
                 shell_indices b0Eps shellTol bvals⟩
      else .error (.validationError negativeBvalueMsg)
    else .error (.validationError nonUnitMsg)
  else .error (.validationError lengthMismatchMsg)

/-- Modelled from the spec: the public construction path from raw
bvalues and directions; such a scheme carries no explicit TE. -/
def acquisition_scheme_from_bvalues (bvals : List ℚ) (dirs : List Vec3)
    (delta bigDelta : Option ℚ) : Except SchemeError Scheme :=
  acquisition_scheme_core bvals dirs delta bigDelta none

/-- Modelled from the spec (external gradient-table interface, section 6):
bvalues in the external s/mm2 convention, directions, and two scheme-wide
optional timing scalars. -/
structure DipyGradientTable where
  bvals : List ℚ
  bvecs : List Vec3
  small_delta : Option ℚ
  big_delta : Option ℚ

/-- Modelled from the spec (SchemeConverter import; gtab_dipy2dmipy in
the tutorial): refuses partial timing with IncompleteAcquisitionError,
converts bvalues from s/mm2 to SI s/m2, and delegates to construction
from raw arrays. -/
def gtab_dipy2dmipy (gtab : DipyGradientTable) : Except SchemeError Scheme :=
  match gtab.small_delta, gtab.big_delta with
  | some d, some D =>
    acquisition_scheme_from_bvalues (gtab.bvals.map (fun b => b * 1000000))
      gtab.bvecs (some d) (some D)
  | _, _ => .error (.incompleteAcquisitionError incompleteGtabMsg)

/-- Modelled from the spec: the gradient_strengths accessor; none is the
unavailable sentinel reported when the scheme was built without
timing. -/
noncomputable def Scheme.gradient_strengths (s : Scheme) : Option (List ℝ) :=
  match s.delta, s.bigDelta with
  | some d, some D =>
    some (s.bvalues.map (fun b =>
      bvalue_to_gradient_strength_val (b : ℝ) (d : ℝ) (D : ℝ) (waterGamma : ℝ)))
  | _, _ => none

/-- Modelled from the spec: the qvalues accessor, derived from the
gradient strengths and the pulse duration; none when unavailable. -/
noncomputable def Scheme.qvalues (s : Scheme) : Option (List ℝ) :=
  match s.delta, s.bigDelta with
  | some d, some D =>
    some (s.bvalues.map (fun b =>
      gradient_strength_to_qvalue
        (bvalue_to_gradient_strength_val (b : ℝ) (d : ℝ) (D : ℝ) (waterGamma : ℝ))
        (d : ℝ) (waterGamma : ℝ)))
  | _, _ => none

/-- Modelled from the spec: the diffusion-time accessor tau; none when
timing is unavailable. -/
def Scheme.tau (s : Scheme) : Option ℚ :=
  match s.delta, s.bigDelta with
  | some d, some D => some (diffusion_time d D)
  | _, _ => none

/-- Whether the summary table shows N/A in the TE column; the summary is
a pure projection of the stored arrays (spec 4.3). -/
def Scheme.teShowsNA (s : Scheme) : Bool := s.TE.isNone

/-- Modelled from the spec (section 6, scheme-file text format): one row
per measurement holding the direction components, the bvalue, the
gradient strength, the timing parameters and TE. -/
structure SchemeRow where
  gx : ℚ
  gy : ℚ
  gz : ℚ
  bvalue : ℚ
  G : ℝ
  delta : ℚ
  bigDelta : ℚ
  TE : ℚ

/-- The per-row TE values written on export: the stored TE when the
scheme carries one, otherwise the default Delta + 2 delta + 0.001
seconds. -/
def exportTEs (s : Scheme) (d D : ℚ) : List ℚ :=
  match s.TE with
  | some t => t
  | none => List.replicate s.bvalues.length (D + 2 * d + 1 / 1000)

/-- Modelled from the spec (SchemeConverter export, 4.4): one row per
measurement; fails with MissingFieldError when delta or Delta is
absent. -/
noncomputable def to_schemefile (s : Scheme) :
    Except SchemeError (List SchemeRow) :=
  match s.delta, s.bigDelta with
  | some d, some D =>
    .ok (List.zipWith
      (fun p te =>
        ⟨p.2.1, p.2.2.1, p.2.2.2, p.1,
         bvalue_to_gradient_strength_val (p.1 : ℝ) (d : ℝ) (D : ℝ)
           (waterGamma : ℝ), d, D, te⟩)
      (s.bvalues.zip s.gradient_directions) (exportTEs s d D))
  | _, _ => .error (.missingFieldError missingTimingExportMsg)

/-- Modelled from the spec (SchemeConverter import from scheme-file,
4.4): reads the raw arrays back from the rows and proceeds as
construction from raw arrays with the per-row TE; timing is scheme-wide
in this model and read from the first row. -/
def acquisition_scheme_from_schemefile (rows : List SchemeRow) :
    Except SchemeError Scheme :=
  match rows with
  | [] => .error (.validationError emptySchemefileMsg)
  | r :: _ =>
    acquisition_scheme_core (rows.map (fun x => x.bvalue))
      (rows.map (fun x => (x.gx, x.gy, x.gz)))
      (some r.delta) (some r.bigDelta) (some (rows.map (fun x => x.TE)))

/-- A small concrete input: one b0 and one DWI measurement. -/
def wBvals : List ℚ := [0, 1000000000]

/-- Concrete directions for the small input: zero vector for the b0 row,
a unit vector for the DWI row. -/
def wDirs : List Vec3 := [(0, 0, 0), (1, 0, 0)]

/-- The HCP pulse duration, 10.6 ms. -/
def wd : ℚ := 106 / 10000

/-- The HCP pulse separation, 43.1 ms. -/
def wD : ℚ := 431 / 10000

/-- The scheme produced from the small concrete input with HCP timing. -/
def wScheme : Scheme :=
  ⟨wBvals, wDirs, some wd, some wD, none,
   shell_indices b0Eps shellTol wBvals⟩

/-- A dipy gradient table carrying the small input in s/mm2 units with
both timing parameters set. -/
def wGtab : DipyGradientTable := ⟨[0, 1000], wDirs, some wd, some wD⟩

/-- No cluster produced by the threshold scan is empty. -/
theorem clusterShells_ne_nil (tol : ℚ) :
    ∀ l : List ℚ, ∀ c ∈ clusterShells tol l, c ≠ [] := by
  intro l
  induction l with
  | nil => intro c hc; simp [clusterShells] at hc
  | cons b rest ih =>
    intro c hc
    simp only [clusterShells] at hc
    split at hc
    · simp at hc
      subst hc
      simp
    · next cs heq =>
      rcases List.mem_cons.mp hc with h | h
      · subst h; simp
      · exact ih c (by rw [heq]; exact List.mem_cons_of_mem _ h)
    · next b2 c0 cs heq =>
      split at hc
      · rcases List.mem_cons.mp hc with h | h
        · subst h; simp
        · exact ih c (by rw [heq]; exact List.mem_cons_of_mem _ h)
      · rcases List.mem_cons.mp hc with h | h
        · subst h; simp
        · exact ih c (by rw [heq]; exact h)

/-- The clusters concatenate back to the input list: the threshold scan
partitions the sorted sequence into contiguous blocks. -/
theorem flatten_clusterShells (tol : ℚ) :
    ∀ l : List ℚ, (clusterShells tol l).flatten = l := by
  intro l
  induction l with
  | nil => simp [clusterShells]
  | cons b rest ih =>
    simp only [clusterShells]
    split
    · next heq =>
      rw [heq] at ih
      simp only [List.flatten_nil] at ih
      simp [← ih]
    · next cs heq =>
      rw [heq] at ih
      simp only [List.flatten_cons, List.nil_append] at ih
      simp [ih]
    · next b2 c0 cs heq =>
      rw [heq] at ih
      simp only [List.flatten_cons] at ih
      split
      · simp [ih]
      · simp [ih]

/-- The scan on a nonempty list yields a first cluster led by the head. -/
theorem clusterShells_cons (tol b : ℚ) (rest : List ℚ) :
    ∃ c cs, clusterShells tol (b :: rest) = (b :: c) :: cs := by
  simp only [clusterShells]
  split
  · exact ⟨[], [], rfl⟩
  · next cs heq => exact ⟨[], cs, rfl⟩
  · next b2 c0 cs heq =>
    split
    · exact ⟨b2 :: c0, cs, rfl⟩
    · exact ⟨[], (b2 :: c0) :: cs, rfl⟩

/-- On a sorted input with non-negative tolerance, the clusters are
strictly ordered: every bvalue of an earlier shell is smaller than every
bvalue of a later shell. -/
theorem clusterShells_pairwise (tol : ℚ) (htol : 0 ≤ tol) :
    ∀ l : List ℚ, l.Sorted (· ≤ ·) →
      (clusterShells tol l).Pairwise (fun c c2 => ∀ x ∈ c, ∀ y ∈ c2, x < y) := by
  intro l
  induction l with
  | nil => intro _; simp [clusterShells]
  | cons b rest ih =>
    intro hs
    have hs2 : rest.Sorted (· ≤ ·) := hs.of_cons
    have hble : ∀ y ∈ rest, b ≤ y := List.rel_of_sorted_cons hs
    have hrec := ih hs2
    have hflat := flatten_clusterShells tol rest
    simp only [clusterShells]
    split
    · simp
    · next cs heq =>
      exact absurd rfl
        (clusterShells_ne_nil tol rest [] (by rw [heq]; exact List.mem_cons_self _ _))
    · next b2 c0 cs heq =>
      rw [heq] at hrec hflat
      simp only [List.flatten_cons] at hflat
      have hb2mem : b2 ∈ rest := by rw [← hflat]; simp
      have hb2le : ∀ y ∈ c0 ++ cs.flatten, b2 ≤ y := by
        intro y hy
        have hsr : rest.Sorted (· ≤ ·) := hs2
        rw [← hflat] at hsr
        simp only [List.cons_append] at hsr
        exact List.rel_of_sorted_cons hsr y hy
      rw [List.pairwise_cons] at hrec
      obtain ⟨hhead, htail⟩ := hrec
      split
      · next hle =>
        refine List.Pairwise.cons ?_ htail
        intro c2 hc2 x hx y hy
        rcases List.mem_cons.mp hx with rfl | hx2
        · have hb2y : b2 < y := hhead c2 hc2 b2 (List.mem_cons_self _ _) y hy
          exact lt_of_le_of_lt (hble b2 hb2mem) hb2y
        · exact hhead c2 hc2 x hx2 y hy
      · next hgt =>
        push_neg at hgt
        have hbb2 : b < b2 := by linarith
        refine List.Pairwise.cons ?_ (List.pairwise_cons.mpr ⟨hhead, htail⟩)
        intro c2 hc2 x hx y hy
        simp only [List.mem_singleton] at hx
        subst hx
        rcases List.mem_cons.mp hc2 with rfl | hc2s
        · rcases List.mem_cons.mp hy with rfl | hy0
          · exact hbb2
          · exact lt_of_lt_of_le hbb2 (hb2le y (List.mem_append_left _ hy0))
        · have hyflat : y ∈ cs.flatten :=
            List.mem_flatten_of_mem hc2s hy
          exact lt_of_lt_of_le hbb2 (hb2le y (List.mem_append_right _ hyflat))

/-- Cluster membership test agrees with list membership. -/
theorem inCluster_iff (b : ℚ) (c : List ℚ) : inCluster b c = true ↔ b ∈ c := by
  simp [inCluster]

/-- Position of the cluster holding a bvalue is monotone in the bvalue,
for strictly ordered clusters. -/
theorem findIdx_inCluster_mono :
    ∀ cs : List (List ℚ),
      cs.Pairwise (fun c c2 => ∀ x ∈ c, ∀ y ∈ c2, x < y) →
      ∀ b b2 : ℚ, (∃ c ∈ cs, b ∈ c) → (∃ c ∈ cs, b2 ∈ c) → b ≤ b2 →
      cs.findIdx (inCluster b) ≤ cs.findIdx (inCluster b2) := by
  intro cs
  induction cs with
  | nil => intro _ b b2 hb _ _; simp at hb
  | cons c cs ih =>
    intro hp b b2 hb hb2 hle
    rw [List.pairwise_cons] at hp
    obtain ⟨hhead, htail⟩ := hp
    by_cases h1 : inCluster b c = true
    · simp [List.findIdx_cons, h1]
    · have h1f : inCluster b c = false := Bool.eq_false_iff.mpr h1
      have hbtail : ∃ c2 ∈ cs, b ∈ c2 := by
        obtain ⟨cb, hcb, hbmem⟩ := hb
        rcases List.mem_cons.mp hcb with rfl | hcbs
        · exact absurd ((inCluster_iff _ _).mpr hbmem) h1
        · exact ⟨cb, hcbs, hbmem⟩
      by_cases h2 : inCluster b2 c = true
      · obtain ⟨cb, hcbs, hbmem⟩ := hbtail
        have hlt := hhead cb hcbs b2 ((inCluster_iff _ _).mp h2) b hbmem
        exact absurd hle (not_le.mpr hlt)
      · have h2f : inCluster b2 c = false := Bool.eq_false_iff.mpr h2
        have hb2tail : ∃ c2 ∈ cs, b2 ∈ c2 := by
          obtain ⟨cb, hcb, hbmem⟩ := hb2
          rcases List.mem_cons.mp hcb with rfl | hcbs
          · exact absurd ((inCluster_iff _ _).mpr hbmem) h2
          · exact ⟨cb, hcbs, hbmem⟩
        simp only [List.findIdx_cons, h1f, h2f, cond_false]
        exact Nat.succ_le_succ (ih htail b b2 hbtail hb2tail hle)

/-- A non-b0 bvalue of the input belongs to the sorted DWI sequence. -/
theorem mem_sortedDWI {eps : ℚ} {bvals : List ℚ} {b : ℚ}
    (hmem : b ∈ bvals) (hb0 : isB0 eps b = false) : b ∈ sortedDWI eps bvals := by
  unfold sortedDWI
  rw [(List.perm_insertionSort _ _).mem_iff, List.mem_filter]
  exact ⟨hmem, by simp [hb0]⟩

/-- The DWI sequence is sorted ascending. -/
theorem sortedDWI_sorted (eps : ℚ) (bvals : List ℚ) :
    (sortedDWI eps bvals).Sorted (· ≤ ·) :=
  List.sorted_insertionSort _ _

/-- Shell index 0 is assigned exactly to the b0 measurements. -/
theorem shell_index_of_eq_zero_iff (eps tol b : ℚ) (bvals : List ℚ) :
    shell_index_of eps tol bvals b = 0 ↔ isB0 eps b = true := by
  unfold shell_index_of
  by_cases h : isB0 eps b = true
  · simp [h]
  · simp [h]

/-- DWI shell indices are assigned in ascending order of bvalue. -/
theorem shell_index_of_mono {eps tol : ℚ} (htol : 0 ≤ tol) {bvals : List ℚ}
    {b b2 : ℚ} (hb : b ∈ bvals) (hb2 : b2 ∈ bvals) (h0 : isB0 eps b = false)
    (h02 : isB0 eps b2 = false) (hle : b ≤ b2) :
    shell_index_of eps tol bvals b ≤ shell_index_of eps tol bvals b2 := by
  unfold shell_index_of
  rw [h0, h02]
  simp only [Bool.false_eq_true, if_false]
  have hpair := clusterShells_pairwise tol htol _ (sortedDWI_sorted eps bvals)
  have hm1 : b ∈ (clusterShells tol (sortedDWI eps bvals)).flatten := by
    rw [flatten_clusterShells]; exact mem_sortedDWI hb h0
  have hm2 : b2 ∈ (clusterShells tol (sortedDWI eps bvals)).flatten := by
    rw [flatten_clusterShells]; exact mem_sortedDWI hb2 h02
  rw [List.mem_flatten] at hm1 hm2
  have := findIdx_inCluster_mono _ hpair b b2 hm1 hm2 hle
  omega

/-- DWI shell indices lie in 1..K where K is the number of DWI shells. -/
theorem shell_index_of_bounds {eps tol : ℚ} {bvals : List ℚ} {b : ℚ}
    (hb : b ∈ bvals) (h0 : isB0 eps b = false) :
    1 ≤ shell_index_of eps tol bvals b ∧
      shell_index_of eps tol bvals b ≤
        (clusterShells tol (sortedDWI eps bvals)).length := by
  unfold shell_index_of
  rw [h0]
  simp only [Bool.false_eq_true, if_false]
  have hm : b ∈ (clusterShells tol (sortedDWI eps bvals)).flatten := by
    rw [flatten_clusterShells]; exact mem_sortedDWI hb h0
  rw [List.mem_flatten] at hm
  obtain ⟨c, hc, hmem⟩ := hm
  have := List.findIdx_lt_length_of_exists ⟨c, hc, (inCluster_iff b c).mpr hmem⟩
  omega

/-- The sorted DWI sequence depends only on the multiset of input
bvalues: permuting the input leaves it unchanged. -/
theorem sortedDWI_perm {eps : ℚ} {l1 l2 : List ℚ} (hp : l1.Perm l2) :
    sortedDWI eps l1 = sortedDWI eps l2 := by
  unfold sortedDWI
  exact List.eq_of_perm_of_sorted
    ((List.perm_insertionSort (· ≤ ·) _).trans
      ((hp.filter _).trans (List.perm_insertionSort (· ≤ ·) _).symm))
    (List.sorted_insertionSort _ _) (List.sorted_insertionSort _ _)

/-- The per-bvalue shell index function is invariant under permutation
of the input array. -/
theorem shell_index_of_perm {eps tol : ℚ} {l1 l2 : List ℚ} (hp : l1.Perm l2)
    (b : ℚ) : shell_index_of eps tol l1 b = shell_index_of eps tol l2 b := by
  unfold shell_index_of
  rw [sortedDWI_perm hp]

/-- The shell_index array is the pointwise image of the index function. -/
theorem shell_indices_eq_map (eps tol : ℚ) (bvals : List ℚ) :
    shell_indices eps tol bvals = bvals.map (shell_index_of eps tol bvals) := rfl

theorem isB0_hcp0 : isB0 b0Eps 0 = true := by decide

theorem isB0_hcp1 : isB0 b0Eps 1000000000 = false := by decide

theorem isB0_hcp2 : isB0 b0Eps 2000000000 = false := by decide

theorem isB0_hcp3 : isB0 b0Eps 3000000000 = false := by decide

/-- Filtering the HCP bvalues keeps exactly the three DWI blocks. -/
theorem filter_hcp :
    hcpBvalues.filter (fun b => ! isB0 b0Eps b) =
      List.replicate 90 1000000000 ++ List.replicate 90 2000000000 ++
        List.replicate 90 3000000000 := by
  unfold hcpBvalues
  rw [List.filter_append, List.filter_append, List.filter_append]
  rw [List.filter_replicate_of_neg (by simp [isB0_hcp0]),
      List.filter_replicate_of_pos (by simp [isB0_hcp1]),
      List.filter_replicate_of_pos (by simp [isB0_hcp2]),
      List.filter_replicate_of_pos (by simp [isB0_hcp3])]
  rw [List.nil_append]

/-- Prepending a constant block below a sorted list stays sorted. -/
theorem sorted_replicate_append (a : ℚ) (l : List ℚ) (hl : l.Sorted (· ≤ ·))
    (hle : ∀ y ∈ l, a ≤ y) :
    ∀ n : ℕ, (List.replicate n a ++ l).Sorted (· ≤ ·) := by
  intro n
  induction n with
  | zero => simp [hl]
  | succ n ih =>
    rw [List.replicate_succ, List.cons_append, List.sorted_cons]
    refine ⟨?_, ih⟩
    intro b hb
    rcases List.mem_append.mp hb with h | h
    · rw [List.mem_replicate] at h
      rw [h.2]
    · exact hle b h

/-- The three HCP DWI blocks form an ascending sequence. -/
theorem hcpDWI_sorted :
    (List.replicate 90 (1000000000 : ℚ) ++ List.replicate 90 2000000000 ++
      List.replicate 90 3000000000).Sorted (· ≤ ·) := by
  rw [List.append_assoc]
  have s3 : (List.replicate 90 (3000000000 : ℚ)).Sorted (· ≤ ·) := by
    have h := sorted_replicate_append 3000000000 [] (by simp) (by simp) 90
    rw [List.append_nil] at h
    exact h
  have s23 : (List.replicate 90 (2000000000 : ℚ) ++
      List.replicate 90 (3000000000 : ℚ)).Sorted (· ≤ ·) := by
    refine sorted_replicate_append _ _ s3 ?_ 90
    intro y hy
    rw [List.mem_replicate] at hy
    rw [hy.2]
    norm_num
  refine sorted_replicate_append _ _ s23 ?_ 90
  intro y hy
  rcases List.mem_append.mp hy with h | h <;> rw [List.mem_replicate] at h <;>
    rw [h.2] <;> norm_num

/-- The sorted DWI sequence of the HCP input. -/
theorem sortedDWI_hcp :
    sortedDWI b0Eps hcpBvalues =
      List.replicate 90 1000000000 ++ List.replicate 90 2000000000 ++
        List.replicate 90 3000000000 := by
  unfold sortedDWI
  rw [filter_hcp]
  exact List.Sorted.insertionSort_eq hcpDWI_sorted

/-- The scan on a singleton. -/
theorem clusterShells_singleton (tol b : ℚ) : clusterShells tol [b] = [[b]] := rfl

/-- One unfolding step of the scan when the tail clusters are known. -/
theorem clusterShells_cons_of (tol b b2 : ℚ) (l c : List ℚ)
    (cs : List (List ℚ)) (h : clusterShells tol l = (b2 :: c) :: cs) :
    clusterShells tol (b :: l) =
      if b2 - b ≤ tol then (b :: b2 :: c) :: cs
      else [b] :: (b2 :: c) :: cs := by
  show (match clusterShells tol l with
    | [] => [[b]]
    | [] :: cs => [b] :: cs
    | (b2 :: c) :: cs =>
      if b2 - b ≤ tol then (b :: b2 :: c) :: cs
      else [b] :: (b2 :: c) :: cs) = _
  rw [h]

/-- A constant block clusters into a single shell. -/
theorem clusterShells_replicate (tol : ℚ) (htol : 0 ≤ tol) (v : ℚ) :
    ∀ n : ℕ, clusterShells tol (List.replicate (n + 1) v) =
      [List.replicate (n + 1) v] := by
  intro n
  induction n with
  | zero => rw [List.replicate_one]; exact clusterShells_singleton tol v
  | succ n ih =>
    rw [List.replicate_succ]
    have ih2 : clusterShells tol (List.replicate (n + 1) v) =
        (v :: List.replicate n v) :: [] := by
      rw [ih, List.replicate_succ]
    rw [clusterShells_cons_of tol v v _ _ _ ih2]
    rw [if_pos (by rw [sub_self]; exact htol)]
    rw [List.replicate_succ]

/-- A constant block followed by a strictly separated remainder clusters
into the block and the remainder clusters. -/
theorem clusterShells_block (tol : ℚ) (htol : 0 ≤ tol) (v b2 : ℚ)
    (hgap : tol < b2 - v) (l : List ℚ) :
    ∀ n : ℕ, clusterShells tol (List.replicate (n + 1) v ++ b2 :: l) =
      List.replicate (n + 1) v :: clusterShells tol (b2 :: l) := by
  intro n
  induction n with
  | zero =>
    obtain ⟨c, cs, heq⟩ := clusterShells_cons tol b2 l
    rw [List.replicate_one, List.singleton_append]
    rw [clusterShells_cons_of tol v b2 _ _ _ heq]
    rw [if_neg (not_le.mpr hgap), ← heq]
  | succ n ih =>
    rw [List.replicate_succ, List.cons_append]
    have ih2 : clusterShells tol (List.replicate (n + 1) v ++ b2 :: l) =
        (v :: List.replicate n v) :: clusterShells tol (b2 :: l) := by
      rw [ih, List.replicate_succ]
    rw [clusterShells_cons_of tol v v _ _ _ ih2]
    rw [if_pos (by rw [sub_self]; exact htol)]
    rw [List.replicate_succ]

/-- The HCP input clusters into the three nominal DWI shells. -/
theorem clusterShells_hcp :
    clusterShells shellTol (sortedDWI b0Eps hcpBvalues) =
      [List.replicate 90 1000000000, List.replicate 90 2000000000,
       List.replicate 90 3000000000] := by
  have htol : (0 : ℚ) ≤ shellTol := by norm_num [shellTol]
  have h3 : clusterShells shellTol (List.replicate 90 (3000000000 : ℚ)) =
      [List.replicate 90 3000000000] := by
    have := clusterShells_replicate shellTol htol (3000000000 : ℚ) 89
    norm_num at this
    exact this
  have h23 : clusterShells shellTol (List.replicate 90 (2000000000 : ℚ) ++
      List.replicate 90 (3000000000 : ℚ)) =
      [List.replicate 90 2000000000, List.replicate 90 3000000000] := by
    have hb : List.replicate 90 (3000000000 : ℚ) =
        3000000000 :: List.replicate 89 3000000000 := by
      rw [show (90 : ℕ) = 89 + 1 from by norm_num, List.replicate_succ]
    rw [hb]
    have hblock := clusterShells_block shellTol htol 2000000000 3000000000
      (by norm_num [shellTol]) (List.replicate 89 3000000000) 89
    norm_num at hblock
    rw [hblock, ← hb, h3]
  rw [sortedDWI_hcp, List.append_assoc]
  have hb2 : List.replicate 90 (2000000000 : ℚ) ++ List.replicate 90 (3000000000 : ℚ) =
      2000000000 :: (List.replicate 89 2000000000 ++ List.replicate 90 3000000000) := by
    rw [show (90 : ℕ) = 89 + 1 from by norm_num, List.replicate_succ,
        List.cons_append]
  rw [hb2]
  have hblock := clusterShells_block shellTol htol 1000000000 2000000000
    (by norm_num [shellTol])
    (List.replicate 89 2000000000 ++ List.replicate 90 3000000000) 89
  norm_num at hblock
  rw [hblock, ← hb2, h23]

theorem inCluster_replicate_self {v : ℚ} {n : ℕ} (h : n ≠ 0) :
    inCluster v (List.replicate n v) = true :=
  (inCluster_iff _ _).mpr (List.mem_replicate.mpr ⟨h, rfl⟩)

theorem inCluster_replicate_ne {v w : ℚ} (hne : w ≠ v) (n : ℕ) :
    inCluster w (List.replicate n v) = false := by
  rw [Bool.eq_false_iff]
  intro hc
  have hm := (inCluster_iff _ _).mp hc
  rw [List.mem_replicate] at hm
  exact hne hm.2

/-- The HCP shell_index array: 0 on the b0 block, then 1, 2, 3 on the
three DWI blocks in ascending bvalue order. -/
theorem shell_indices_hcp :
    shell_indices b0Eps shellTol hcpBvalues =
      List.replicate 18 0 ++ List.replicate 90 1 ++ List.replicate 90 2 ++
        List.replicate 90 3 := by
  have e0 : shell_index_of b0Eps shellTol hcpBvalues 0 = 0 := by
    unfold shell_index_of
    rw [isB0_hcp0]
    simp
  have e1 : shell_index_of b0Eps shellTol hcpBvalues 1000000000 = 1 := by
    unfold shell_index_of
    rw [isB0_hcp1, clusterShells_hcp]
    simp only [Bool.false_eq_true, if_false, List.findIdx_cons]
    rw [inCluster_replicate_self (by norm_num : (90 : ℕ) ≠ 0)]
    simp
  have e2 : shell_index_of b0Eps shellTol hcpBvalues 2000000000 = 2 := by
    unfold shell_index_of
    rw [isB0_hcp2, clusterShells_hcp]
    simp only [Bool.false_eq_true, if_false, List.findIdx_cons]
    rw [inCluster_replicate_ne (by norm_num) 90,
        inCluster_replicate_self (by norm_num : (90 : ℕ) ≠ 0)]
    simp
  have e3 : shell_index_of b0Eps shellTol hcpBvalues 3000000000 = 3 := by
    unfold shell_index_of
    rw [isB0_hcp3, clusterShells_hcp]
    simp only [Bool.false_eq_true, if_false, List.findIdx_cons]
    rw [inCluster_replicate_ne (by norm_num) 90,
        inCluster_replicate_ne (by norm_num) 90,
        inCluster_replicate_self (by norm_num : (90 : ℕ) ≠ 0)]
    simp
  rw [shell_indices_eq_map]
  nth_rewrite 2 [show hcpBvalues = List.replicate 18 (0 : ℚ) ++
      List.replicate 90 1000000000 ++ List.replicate 90 2000000000 ++
      List.replicate 90 3000000000 from rfl]
  simp only [List.map_append, List.map_replicate]
  rw [e0, e1, e2, e3]

set_option maxRecDepth 8000 in
/-- The HCP shell counts: 18 b0 measurements and 90 per DWI shell. -/
theorem shellCounts_hcp :
    shellCount 0 (shell_indices b0Eps shellTol hcpBvalues) = 18 ∧
    shellCount 1 (shell_indices b0Eps shellTol hcpBvalues) = 90 ∧
    shellCount 2 (shell_indices b0Eps shellTol hcpBvalues) = 90 ∧
    shellCount 3 (shell_indices b0Eps shellTol hcpBvalues) = 90 := by
  rw [shell_indices_hcp]
  unfold shellCount
  refine ⟨?_, ?_, ?_, ?_⟩ <;> decide

/-- Construction succeeds without timing when all validation passes. -/
theorem core_untimed_ok {bvals : List ℚ} {dirs : List Vec3}
    {te : Option (List ℚ)} (h1 : lengthsOk bvals dirs te = true)
    (h2 : dirsOk bvals dirs = true) (h3 : bvalsOk bvals = true) :
    acquisition_scheme_core bvals dirs none none te =
      .ok ⟨bvals, dirs, none, none, te, shell_indices b0Eps shellTol bvals⟩ := by
  simp [acquisition_scheme_core, h1, h2, h3]

/-- Construction succeeds with valid timing when all validation passes. -/
theorem core_timed_ok {bvals : List ℚ} {dirs : List Vec3}
    {te : Option (List ℚ)} (d D : ℚ) (h1 : lengthsOk bvals dirs te = true)
    (h2 : dirsOk bvals dirs = true) (h3 : bvalsOk bvals = true)
    (hD : d / 3 < D) :
    acquisition_scheme_core bvals dirs (some d) (some D) te =
      .ok ⟨bvals, dirs, some d, some D, te,
           shell_indices b0Eps shellTol bvals⟩ := by
  simp [acquisition_scheme_core, checkTiming, h1, h2, h3, not_le.mpr hD]

/-- A failed length check is reported as the length ValidationError. -/
theorem core_len_error {bvals : List ℚ} {dirs : List Vec3}
    {delta bigDelta : Option ℚ} {te : Option (List ℚ)}
    (h1 : lengthsOk bvals dirs te = false) :
    acquisition_scheme_core bvals dirs delta bigDelta te =
      .error (.validationError lengthMismatchMsg) := by
  simp [acquisition_scheme_core, h1]

/-- A failed unit-norm check is reported as the direction
ValidationError. -/
theorem core_dir_error {bvals : List ℚ} {dirs : List Vec3}
    {delta bigDelta : Option ℚ} {te : Option (List ℚ)}
    (h1 : lengthsOk bvals dirs te = true) (h2 : dirsOk bvals dirs = false) :
    acquisition_scheme_core bvals dirs delta bigDelta te =
      .error (.validationError nonUnitMsg) := by
  simp [acquisition_scheme_core, h1, h2]

/-- A failed non-negativity check is reported as the bvalue
ValidationError. -/
theorem core_neg_error {bvals : List ℚ} {dirs : List Vec3}
    {delta bigDelta : Option ℚ} {te : Option (List ℚ)}
    (h1 : lengthsOk bvals dirs te = true) (h2 : dirsOk bvals dirs = true)
    (h3 : bvalsOk bvals = false) :
    acquisition_scheme_core bvals dirs delta bigDelta te =
      .error (.validationError negativeBvalueMsg) := by
  simp [acquisition_scheme_core, h1, h2, h3]

/-- Inversion: a successfully constructed scheme stores the validated
input arrays verbatim, carries the classifier output, and its timing is
exactly the supplied, domain-checked timing. -/
theorem core_ok_inv {bvals : List ℚ} {dirs : List Vec3}
    {delta bigDelta : Option ℚ} {te : Option (List ℚ)} {s : Scheme}
    (h : acquisition_scheme_core bvals dirs delta bigDelta te = .ok s) :
    lengthsOk bvals dirs te = true ∧ dirsOk bvals dirs = true ∧
    bvalsOk bvals = true ∧ s.bvalues = bvals ∧
    s.gradient_directions = dirs ∧ s.TE = te ∧
    s.shell_indices = shell_indices b0Eps shellTol bvals ∧
    s.delta = delta ∧ s.bigDelta = bigDelta ∧
    ((delta = none ∧ bigDelta = none) ∨
      (∃ d D, delta = some d ∧ bigDelta = some D ∧ d / 3 < D)) := by
  have h1 : lengthsOk bvals dirs te = true := by
    by_contra hc
    rw [core_len_error (Bool.eq_false_iff.mpr hc)] at h
    exact absurd h (by simp)
  have h2 : dirsOk bvals dirs = true := by
    by_contra hc
    rw [core_dir_error h1 (Bool.eq_false_iff.mpr hc)] at h
    exact absurd h (by simp)
  have h3 : bvalsOk bvals = true := by
    by_contra hc
    rw [core_neg_error h1 h2 (Bool.eq_false_iff.mpr hc)] at h
    exact absurd h (by simp)
  cases delta with
  | none =>
    cases bigDelta with
    | none =>
      rw [core_untimed_ok h1 h2 h3] at h
      simp only [Except.ok.injEq] at h
      subst h
      exact ⟨h1, h2, h3, rfl, rfl, rfl, rfl, rfl, rfl, Or.inl ⟨rfl, rfl⟩⟩
    | some D =>
      simp only [acquisition_scheme_core, checkTiming, h1, h2, h3,
        if_true] at h
      exact absurd h (by simp)
  | some d =>
    cases bigDelta with
    | none =>
      simp only [acquisition_scheme_core, checkTiming, h1, h2, h3,
        if_true] at h
      exact absurd h (by simp)
    | some D =>
      by_cases hD : D ≤ d / 3
      · simp only [acquisition_scheme_core, checkTiming, h1, h2, h3,
          if_true, hD, if_pos] at h
        exact absurd h (by simp)
      · rw [core_timed_ok d D h1 h2 h3 (not_le.mp hD)] at h
        simp only [Except.ok.injEq] at h
        subst h
        exact ⟨h1, h2, h3, rfl, rfl, rfl, rfl, rfl, rfl,
          Or.inr ⟨d, D, rfl, rfl, not_le.mp hD⟩⟩

/-- The length check with no TE is length equality of the two arrays. -/
theorem lengthsOk_none_iff (bvals : List ℚ) (dirs : List Vec3) :
    lengthsOk bvals dirs none = true ↔ bvals.length = dirs.length := by
  simp [lengthsOk]

/-- The direction check fails exactly on a nonzero-bvalue row whose
direction is not unit norm within tolerance. -/
theorem dirsOk_eq_false_iff (bvals : List ℚ) (dirs : List Vec3) :
    dirsOk bvals dirs = false ↔
      ∃ p ∈ bvals.zip dirs, p.1 ≠ 0 ∧ isUnitNorm p.2 = false := by
  rw [Bool.eq_false_iff]
  simp only [dirsOk, ne_eq, List.all_eq_true, not_forall]
  constructor
  · rintro ⟨p, hp, hfail⟩
    refine ⟨p, hp, ?_, ?_⟩
    · intro h0
      exact hfail (by simp [h0])
    · cases hiso : isUnitNorm p.2 with
      | true => exact absurd (by simp [hiso]) hfail
      | false => rfl
  · rintro ⟨p, hp, h0, hu⟩
    exact ⟨p, hp, by simp [hu, h0]⟩

/-- The bvalue check fails exactly when some bvalue is negative. -/
theorem bvalsOk_eq_false_iff (bvals : List ℚ) :
    bvalsOk bvals = false ↔ ∃ b ∈ bvals, b < 0 := by
  rw [Bool.eq_false_iff]
  simp [bvalsOk, List.all_eq_true, not_le]

/-- Projections of the exported rows recover the source arrays. -/
theorem export_rows_maps (d D : ℚ) :
    ∀ (bv : List ℚ) (dv : List Vec3) (tv : List ℚ),
      bv.length = dv.length → bv.length = tv.length →
      (List.zipWith (fun p te =>
          SchemeRow.mk p.2.1 p.2.2.1 p.2.2.2 p.1
            (bvalue_to_gradient_strength_val (p.1 : ℝ) (d : ℝ) (D : ℝ)
              (waterGamma : ℝ)) d D te) (bv.zip dv) tv).map
          (fun x => x.bvalue) = bv ∧
      (List.zipWith (fun p te =>
          SchemeRow.mk p.2.1 p.2.2.1 p.2.2.2 p.1
            (bvalue_to_gradient_strength_val (p.1 : ℝ) (d : ℝ) (D : ℝ)
              (waterGamma : ℝ)) d D te) (bv.zip dv) tv).map
          (fun x => (x.gx, x.gy, x.gz)) = dv ∧
      (List.zipWith (fun p te =>
          SchemeRow.mk p.2.1 p.2.2.1 p.2.2.2 p.1
            (bvalue_to_gradient_strength_val (p.1 : ℝ) (d : ℝ) (D : ℝ)
              (waterGamma : ℝ)) d D te) (bv.zip dv) tv).map
          (fun x => x.TE) = tv := by
  intro bv
  induction bv with
  | nil =>
    intro dv tv h1 h2
    cases dv with
    | cons x xs => simp at h1
    | nil =>
      cases tv with
      | cons x xs => simp at h2
      | nil => simp
  | cons b bv ih =>
    intro dv tv h1 h2
    cases dv with
    | nil => simp at h1
    | cons v dv =>
      cases tv with
      | nil => simp at h2
      | cons te tv =>
        have hrec := ih dv tv (by simpa using h1) (by simpa using h2)
        simp only [List.zip_cons_cons, List.zipWith_cons_cons, List.map_cons]
        refine ⟨by rw [hrec.1], ?_, by rw [hrec.2.2]⟩
        rw [hrec.2.1]
        simp

/-- Round trip through the schemefile representation: exporting a scheme
built from bvalues with timing and re-importing reproduces the bvalues,
directions, gradient strengths and shell assignment exactly, with TE
materialized to the default Delta + 2 delta + 0.001 per row. -/
theorem schemefile_roundtrip {bvals : List ℚ} {dirs : List Vec3} {d D : ℚ}
    {s : Scheme}
    (h : acquisition_scheme_from_bvalues bvals dirs (some d) (some D) = .ok s)
    (hne : bvals ≠ []) :
    s.TE = none ∧
    ∃ rows s2, to_schemefile s = .ok rows ∧
      rows.map (fun r => r.TE) =
        List.replicate bvals.length (D + 2 * d + 1 / 1000) ∧
      acquisition_scheme_from_schemefile rows = .ok s2 ∧
      s2.bvalues = s.bvalues ∧
      s2.gradient_directions = s.gradient_directions ∧
      s2.gradient_strengths = s.gradient_strengths ∧
      s2.shell_indices = s.shell_indices ∧
      s2.TE = some (List.replicate bvals.length (D + 2 * d + 1 / 1000)) := by
  obtain ⟨h1, h2, h3, sb, sd, sTE, ssh, sdelta, sD, htm⟩ := core_ok_inv h
  have hD : d / 3 < D := by
    rcases htm with ⟨hc, _⟩ | ⟨d2, D2, hd2, hD2, hlt⟩
    · exact absurd hc (by simp)
    · rw [Option.some.injEq] at hd2 hD2
      rw [← hd2, ← hD2] at hlt
      exact hlt
  have hlen : bvals.length = dirs.length := (lengthsOk_none_iff _ _).mp h1
  obtain ⟨b, bv, rfl⟩ : ∃ b bv, bvals = b :: bv := by
    cases bvals with
    | nil => exact absurd rfl hne
    | cons x xs => exact ⟨x, xs, rfl⟩
  obtain ⟨v, dv, rfl⟩ : ∃ v dv, dirs = v :: dv := by
    cases dirs with
    | nil => simp at hlen
    | cons x xs => exact ⟨x, xs, rfl⟩
  have hlen2 : bv.length = dv.length := by simpa using hlen
  have hmaps := export_rows_maps d D bv dv
    (List.replicate bv.length (D + 2 * d + 1 / 1000)) hlen2
    (by rw [List.length_replicate])
  have hrows : to_schemefile s =
      .ok (SchemeRow.mk v.1 v.2.1 v.2.2 b
          (bvalue_to_gradient_strength_val (b : ℝ) (d : ℝ) (D : ℝ)
            (waterGamma : ℝ)) d D (D + 2 * d + 1 / 1000) ::
        List.zipWith (fun p te =>
          SchemeRow.mk p.2.1 p.2.2.1 p.2.2.2 p.1
            (bvalue_to_gradient_strength_val (p.1 : ℝ) (d : ℝ) (D : ℝ)
              (waterGamma : ℝ)) d D te) (bv.zip dv)
          (List.replicate bv.length (D + 2 * d + 1 / 1000))) := by
    simp only [to_schemefile, sdelta, sD, exportTEs, sTE, sb, sd,
      List.length_cons, List.replicate_succ, List.zip_cons_cons,
      List.zipWith_cons_cons]
  refine ⟨sTE, _,
    ⟨b :: bv, v :: dv, some d, some D,
     some (List.replicate (b :: bv).length (D + 2 * d + 1 / 1000)),
     shell_indices b0Eps shellTol (b :: bv)⟩,
    hrows, ?_, ?_, sb.symm, sd.symm, ?_, ssh.symm, rfl⟩
  · simp only [List.map_cons, List.length_cons, List.replicate_succ]
    rw [hmaps.2.2]
  · simp only [acquisition_scheme_from_schemefile, List.map_cons]
    rw [hmaps.1, hmaps.2.1, hmaps.2.2]
    have hlok : lengthsOk (b :: bv) ((v.1, v.2.1, v.2.2) :: dv)
        (some ((D + 2 * d + 1 / 1000) ::
          List.replicate bv.length (D + 2 * d + 1 / 1000))) = true := by
      simp [lengthsOk, hlen2]
    have hdirok : dirsOk (b :: bv) ((v.1, v.2.1, v.2.2) :: dv) = true := by
      have hv : ((v.1, v.2.1, v.2.2) : Vec3) = v := by
        show (v.1, v.2.1, v.2.2) = (v.1, v.2)
        rw [Prod.mk.injEq]
        exact ⟨rfl, rfl⟩
      rw [hv]
      exact h2
    rw [core_timed_ok d D hlok hdirok h3 hD]
    have hv : ((v.1, v.2.1, v.2.2) : Vec3) = v := by
      show (v.1, v.2.1, v.2.2) = (v.1, v.2)
      rw [Prod.mk.injEq]
      exact ⟨rfl, rfl⟩
    rw [hv]
    simp [List.replicate_succ]
  · simp only [Scheme.gradient_strengths, sdelta, sD, sb]
theorem isUnitNorm_e1 : isUnitNorm ((1 : ℚ), (0 : ℚ), (0 : ℚ)) = true := by
  simp only [isUnitNorm, sqnorm, unitNormTol, decide_eq_true_eq]
  norm_num

theorem isUnitNorm_two : isUnitNorm ((2 : ℚ), (0 : ℚ), (0 : ℚ)) = false := by
  simp only [isUnitNorm, sqnorm, unitNormTol, decide_eq_false_iff_not]
  norm_num

theorem wLengthsNone : lengthsOk wBvals wDirs none = true := by decide

theorem wDirsOk : dirsOk wBvals wDirs = true := by
  show ((decide ((0 : ℚ) = 0) || isUnitNorm (0, 0, 0)) &&
      ((decide ((1000000000 : ℚ) = 0) || isUnitNorm (1, 0, 0)) && true)) = true
  rw [isUnitNorm_e1]
  simp

theorem wBvalsOk : bvalsOk wBvals = true := by decide

theorem wTimingOk : wd / 3 < wD := by norm_num [wd, wD]

/-- Constructing from the small concrete input with HCP timing
succeeds and yields the expected scheme. -/
theorem wConstructTimed :
    acquisition_scheme_from_bvalues wBvals wDirs (some wd) (some wD) =
      .ok wScheme :=
  core_timed_ok wd wD wLengthsNone wDirsOk wBvalsOk wTimingOk

/-- Converting the small dipy table succeeds and agrees with the direct
construction after the unit conversion. -/
theorem wGtabOk : gtab_dipy2dmipy wGtab = .ok wScheme := by
  show acquisition_scheme_from_bvalues
    (List.map (fun b => b * 1000000) [(0 : ℚ), 1000]) wDirs
    (some wd) (some wD) = .ok wScheme
  rw [show List.map (fun b => b * 1000000) [(0 : ℚ), 1000] = wBvals from by
    norm_num [wBvals]]
  exact wConstructTimed

/-- The TE field of every exported row comes from the TE list handed to
the export. -/
theorem zipWith_row_TE_mem (d D : ℚ) :
    ∀ (l : List (ℚ × Vec3)) (tv : List ℚ) (r : SchemeRow),
      r ∈ List.zipWith (fun p te =>
        SchemeRow.mk p.2.1 p.2.2.1 p.2.2.2 p.1
          (bvalue_to_gradient_strength_val (p.1 : ℝ) (d : ℝ) (D : ℝ)
            (waterGamma : ℝ)) d D te) l tv → r.TE ∈ tv := by
  intro l
  induction l with
  | nil => intro tv r hr; simp at hr
  | cons p l ih =>
    intro tv r hr
    cases tv with
    | nil => simp at hr
    | cons te tv =>
      rw [List.zipWith_cons_cons] at hr
      rcases List.mem_cons.mp hr with rfl | h
      · exact List.mem_cons_self _ _
      · exact List.mem_cons_of_mem _ (ih tv r h)

/-- C1: the shell classifier assigns shell_index 0 to exactly the b0
measurements and indices 1..K to the DWI shells in ascending bvalue
order; the assignment is a function of the bvalue array alone (two
schemes built from the same bvalues with different directions or timing
carry the same shell_indices); on the 288-measurement HCP input the
shells 0,1,2,3 have counts 18, 90, 90, 90. -/
theorem C1_shell_classification :
    (∀ eps tol b : ℚ, ∀ bvals : List ℚ,
      shell_index_of eps tol bvals b = 0 ↔ isB0 eps b = true) ∧
    (∀ eps tol : ℚ, 0 ≤ tol → ∀ bvals : List ℚ, ∀ b b2 : ℚ,
      b ∈ bvals → b2 ∈ bvals → isB0 eps b = false → isB0 eps b2 = false →
      b ≤ b2 →
      shell_index_of eps tol bvals b ≤ shell_index_of eps tol bvals b2) ∧
    (∀ eps tol : ℚ, ∀ bvals : List ℚ, ∀ b : ℚ,
      b ∈ bvals → isB0 eps b = false →
      1 ≤ shell_index_of eps tol bvals b ∧
        shell_index_of eps tol bvals b ≤
          (clusterShells tol (sortedDWI eps bvals)).length) ∧
    (∀ bvals : List ℚ, ∀ dirs dirs2 : List Vec3,
      ∀ t1 t2 t3 t4 : Option ℚ, ∀ te1 te2 : Option (List ℚ),
      ∀ s1 s2 : Scheme,
      acquisition_scheme_core bvals dirs t1 t2 te1 = .ok s1 →
      acquisition_scheme_core bvals dirs2 t3 t4 te2 = .ok s2 →
      s1.shell_indices = s2.shell_indices) ∧
    shell_indices b0Eps shellTol hcpBvalues =
      List.replicate 18 0 ++ List.replicate 90 1 ++ List.replicate 90 2 ++
        List.replicate 90 3 ∧
    shellCount 0 (shell_indices b0Eps shellTol hcpBvalues) = 18 ∧
    shellCount 1 (shell_indices b0Eps shellTol hcpBvalues) = 90 ∧
    shellCount 2 (shell_indices b0Eps shellTol hcpBvalues) = 90 ∧
    shellCount 3 (shell_indices b0Eps shellTol hcpBvalues) = 90 := by
  refine ⟨?_, ?_, ?_, ?_, shell_indices_hcp, shellCounts_hcp.1,
    shellCounts_hcp.2.1, shellCounts_hcp.2.2.1, shellCounts_hcp.2.2.2⟩
  · intro eps tol b bvals
    exact shell_index_of_eq_zero_iff eps tol b bvals
  · intro eps tol htol bvals b b2 hb hb2 h0 h02 hle
    exact shell_index_of_mono htol hb hb2 h0 h02 hle
  · intro eps tol bvals b hb h0
    exact shell_index_of_bounds hb h0
  · intro bvals dirs dirs2 t1 t2 t3 t4 te1 te2 s1 s2 h1 h2
    have i1 := core_ok_inv h1
    have i2 := core_ok_inv h2
    rw [i1.2.2.2.2.2.2.1, i2.2.2.2.2.2.2.1]

/-- Witness for C1 at the small concrete input: monotone shell indices
for the DWI bvalue. -/
theorem C1_witness :
    (0 : ℚ) ≤ shellTol ∧ (1000000000 : ℚ) ∈ wBvals ∧
    isB0 b0Eps 1000000000 = false ∧
    shell_index_of b0Eps shellTol wBvals 1000000000 ≤
      shell_index_of b0Eps shellTol wBvals 1000000000 :=
  ⟨by norm_num [shellTol], by simp [wBvals], by decide,
   C1_shell_classification.2.1 b0Eps shellTol (by norm_num [shellTol])
     wBvals 1000000000 1000000000 (by simp [wBvals]) (by simp [wBvals])
     (by decide) (by decide) le_rfl⟩

/-- C2: deriving the gradient strength from a positive bvalue with valid
timing and applying the inverse formula returns the original bvalue
exactly in the real-number model. -/
theorem C2_bvalue_roundtrip (b d D g : ℝ) (hb : 0 < b) (hd : 0 < d)
    (hg : g ≠ 0) (hD : d / 3 < D) :
    gradient_strength_to_bvalue (bvalue_to_gradient_strength_val b d D g)
      d D g = b := by
  unfold bvalue_to_gradient_strength_val gradient_strength_to_bvalue
  rw [if_neg (ne_of_gt hb)]
  have htau : 0 < D - d / 3 := by linarith
  have hd0 : d ≠ 0 := ne_of_gt hd
  have ht0 : D - d / 3 ≠ 0 := ne_of_gt htau
  rw [Real.sq_sqrt (by positivity)]
  have hg2 : g ^ 2 ≠ 0 := pow_ne_zero 2 hg
  have hd2 : d ^ 2 ≠ 0 := pow_ne_zero 2 hd0
  have h9 : (0 : ℝ) < D * 3 - d := by linarith
  field_simp
  ring

/-- Witness for C2 at bvalue 1 with unit parameters. -/
theorem C2_witness :
    (0 : ℝ) < 1 ∧ (1 : ℝ) / 3 < 1 ∧ (1 : ℝ) ≠ 0 ∧
    gradient_strength_to_bvalue (bvalue_to_gradient_strength_val 1 1 1 1)
      1 1 1 = 1 :=
  ⟨by norm_num, by norm_num, by norm_num,
   C2_bvalue_roundtrip 1 1 1 1 (by norm_num) (by norm_num) (by norm_num)
     (by norm_num)⟩

/-- Zipping the pointwise image of a list with the list itself is the
map of the pairing function. -/
theorem zip_map_self {α β : Type} (f : α → β) (l : List α) :
    (l.map f).zip l = l.map (fun a => (f a, a)) := by
  induction l with
  | nil => rfl
  | cons a l ih => simp [ih]

/-- C3: shell assignment is invariant under permutation of the input:
the classifier output on a permuted bvalue array is the permuted multiset
of (shell_index, bvalue) pairs, and the same holds for the arrays stored
by two schemes constructed from permuted inputs. -/
theorem C3_permutation_invariance :
    (∀ eps tol : ℚ, ∀ l1 l2 : List ℚ, l1.Perm l2 →
      (l1.map (fun b => (shell_index_of eps tol l1 b, b))).Perm
        (l2.map (fun b => (shell_index_of eps tol l2 b, b)))) ∧
    (∀ l1 l2 : List ℚ, ∀ d1 d2 : List Vec3, ∀ t1 t2 t3 t4 : Option ℚ,
      ∀ te1 te2 : Option (List ℚ), ∀ s1 s2 : Scheme, l1.Perm l2 →
      acquisition_scheme_core l1 d1 t1 t2 te1 = .ok s1 →
      acquisition_scheme_core l2 d2 t3 t4 te2 = .ok s2 →
      (s1.shell_indices.zip s1.bvalues).Perm
        (s2.shell_indices.zip s2.bvalues)) := by
  have hcls : ∀ eps tol : ℚ, ∀ l1 l2 : List ℚ, l1.Perm l2 →
      (l1.map (fun b => (shell_index_of eps tol l1 b, b))).Perm
        (l2.map (fun b => (shell_index_of eps tol l2 b, b))) := by
    intro eps tol l1 l2 hp
    have hfun : shell_index_of eps tol l1 = shell_index_of eps tol l2 := by
      funext b
      exact shell_index_of_perm hp b
    rw [hfun]
    exact hp.map _
  refine ⟨hcls, ?_⟩
  intro l1 l2 d1 d2 t1 t2 t3 t4 te1 te2 s1 s2 hp h1 h2
  have i1 := core_ok_inv h1
  have i2 := core_ok_inv h2
  rw [i1.2.2.2.1, i2.2.2.2.1, i1.2.2.2.2.2.2.1, i2.2.2.2.2.2.2.1]
  rw [shell_indices_eq_map, shell_indices_eq_map]
  rw [zip_map_self, zip_map_self]
  exact hcls b0Eps shellTol l1 l2 hp

/-- Witness for C3 at a concrete two-element permutation. -/
theorem C3_witness :
    ([(0 : ℚ), 1000000000].Perm [1000000000, 0]) ∧
    (([(0 : ℚ), 1000000000].map (fun b =>
        (shell_index_of b0Eps shellTol [(0 : ℚ), 1000000000] b, b))).Perm
      ([(1000000000 : ℚ), 0].map (fun b =>
        (shell_index_of b0Eps shellTol [(1000000000 : ℚ), 0] b, b)))) :=
  ⟨List.Perm.swap 1000000000 0 [],
   C3_permutation_invariance.1 b0Eps shellTol _ _
     (List.Perm.swap 1000000000 0 [])⟩

/-- C4: exporting a timed scheme to schemefile rows and re-importing
reproduces bvalues, directions and gradient strengths exactly; a scheme
that carried no TE is re-imported with TE materialized to the default
Delta + 2 delta + 0.001 seconds per row rather than the absent state. -/
theorem C4_schemefile_roundtrip {bvals : List ℚ} {dirs : List Vec3}
    {d D : ℚ} {s : Scheme}
    (h : acquisition_scheme_from_bvalues bvals dirs (some d) (some D) = .ok s)
    (hne : bvals ≠ []) :
    s.TE = none ∧
    ∃ rows s2, to_schemefile s = .ok rows ∧
      rows.map (fun r => r.TE) =
        List.replicate bvals.length (D + 2 * d + 1 / 1000) ∧
      acquisition_scheme_from_schemefile rows = .ok s2 ∧
      s2.bvalues = s.bvalues ∧
      s2.gradient_directions = s.gradient_directions ∧
      s2.gradient_strengths = s.gradient_strengths ∧
      s2.shell_indices = s.shell_indices ∧
      s2.TE = some (List.replicate bvals.length (D + 2 * d + 1 / 1000)) :=
  schemefile_roundtrip h hne

/-- Witness for C4 at the small concrete scheme. -/
theorem C4_witness :
    acquisition_scheme_from_bvalues wBvals wDirs (some wd) (some wD) =
      .ok wScheme ∧
    wBvals ≠ [] ∧
    (wScheme.TE = none ∧
     ∃ rows s2, to_schemefile wScheme = .ok rows ∧
       rows.map (fun r => r.TE) =
         List.replicate wBvals.length (wD + 2 * wd + 1 / 1000) ∧
       acquisition_scheme_from_schemefile rows = .ok s2 ∧
       s2.bvalues = wScheme.bvalues ∧
       s2.gradient_directions = wScheme.gradient_directions ∧
       s2.gradient_strengths = wScheme.gradient_strengths ∧
       s2.shell_indices = wScheme.shell_indices ∧
       s2.TE = some (List.replicate wBvals.length (wD + 2 * wd + 1 / 1000))) :=
  ⟨wConstructTimed, by simp [wBvals],
   C4_schemefile_roundtrip wConstructTimed (by simp [wBvals])⟩

/-- C5: construction from raw arrays fails with a ValidationError
carrying the invariant-specific message on mismatched lengths, on a
non-unit direction of a nonzero bvalue, and on a negative bvalue; the
three messages are distinct and no scheme is produced. -/
theorem C5_validation_errors (bvals : List ℚ) (dirs : List Vec3)
    (delta bigDelta : Option ℚ) :
    (bvals.length ≠ dirs.length →
      acquisition_scheme_from_bvalues bvals dirs delta bigDelta =
        .error (.validationError lengthMismatchMsg)) ∧
    (bvals.length = dirs.length →
      (∃ p ∈ bvals.zip dirs, p.1 ≠ 0 ∧ isUnitNorm p.2 = false) →
      acquisition_scheme_from_bvalues bvals dirs delta bigDelta =
        .error (.validationError nonUnitMsg)) ∧
    (bvals.length = dirs.length →
      (∀ p ∈ bvals.zip dirs, p.1 ≠ 0 → isUnitNorm p.2 = true) →
      (∃ b ∈ bvals, b < 0) →
      acquisition_scheme_from_bvalues bvals dirs delta bigDelta =
        .error (.validationError negativeBvalueMsg)) ∧
    (lengthMismatchMsg ≠ nonUnitMsg ∧ lengthMismatchMsg ≠ negativeBvalueMsg ∧
      nonUnitMsg ≠ negativeBvalueMsg) ∧
    (∀ msg s,
      acquisition_scheme_from_bvalues bvals dirs delta bigDelta =
        .error (.validationError msg) →
      acquisition_scheme_from_bvalues bvals dirs delta bigDelta ≠ .ok s) := by
  refine ⟨?_, ?_, ?_, ⟨by decide, by decide, by decide⟩, ?_⟩
  · intro hne
    exact core_len_error (by simp [lengthsOk, hne])
  · intro hlen hex
    exact core_dir_error ((lengthsOk_none_iff _ _).mpr hlen)
      ((dirsOk_eq_false_iff _ _).mpr hex)
  · intro hlen hall hex
    have hdirs : dirsOk bvals dirs = true := by
      rw [dirsOk]
      rw [List.all_eq_true]
      intro p hp
      by_cases h0 : p.1 = 0
      · simp [h0]
      · simp [hall p hp h0]
    exact core_neg_error ((lengthsOk_none_iff _ _).mpr hlen) hdirs
      ((bvalsOk_eq_false_iff _).mpr hex)
  · intro msg s herr hok
    rw [herr] at hok
    exact absurd hok (by simp)

/-- Witness for C5: a length mismatch, a non-unit direction, and a
negative bvalue, each at a concrete input. -/
theorem C5_witness :
    (([(0 : ℚ)].length ≠ ([] : List Vec3).length) ∧
      acquisition_scheme_from_bvalues [(0 : ℚ)] [] none none =
        .error (.validationError lengthMismatchMsg)) ∧
    ((∃ p ∈ [(1000000000 : ℚ)].zip [((2 : ℚ), (0 : ℚ), (0 : ℚ))],
        p.1 ≠ 0 ∧ isUnitNorm p.2 = false) ∧
      acquisition_scheme_from_bvalues [(1000000000 : ℚ)]
        [((2 : ℚ), (0 : ℚ), (0 : ℚ))] none none =
        .error (.validationError nonUnitMsg)) ∧
    ((∃ b ∈ [(-1 : ℚ)], b < 0) ∧
      acquisition_scheme_from_bvalues [(-1 : ℚ)]
        [((1 : ℚ), (0 : ℚ), (0 : ℚ))] none none =
        .error (.validationError negativeBvalueMsg)) := by
  refine ⟨⟨by simp, ?_⟩, ⟨⟨(1000000000, (2, 0, 0)), by simp,
    by norm_num, isUnitNorm_two⟩, ?_⟩, ⟨⟨-1, by simp, by norm_num⟩, ?_⟩⟩
  · exact (C5_validation_errors [(0 : ℚ)] [] none none).1 (by simp)
  · exact (C5_validation_errors [(1000000000 : ℚ)]
      [((2 : ℚ), (0 : ℚ), (0 : ℚ))] none none).2.1 (by simp)
      ⟨(1000000000, (2, 0, 0)), by simp, by norm_num, isUnitNorm_two⟩
  · refine (C5_validation_errors [(-1 : ℚ)]
      [((1 : ℚ), (0 : ℚ), (0 : ℚ))] none none).2.2.1 (by simp) ?_
      ⟨-1, by simp, by norm_num⟩
    intro p hp hne
    have hp2 : p = (-1, ((1 : ℚ), (0 : ℚ), (0 : ℚ))) := by
      simpa using hp
    rw [hp2]
    exact isUnitNorm_e1

/-- C6: importing a gradient table in which exactly one timing parameter
is present raises IncompleteAcquisitionError and produces no scheme. -/
theorem C6_incomplete_gtab (gtab : DipyGradientTable)
    (h : (gtab.small_delta = none ∧ gtab.big_delta ≠ none) ∨
         (gtab.small_delta ≠ none ∧ gtab.big_delta = none)) :
    gtab_dipy2dmipy gtab =
      .error (.incompleteAcquisitionError incompleteGtabMsg) ∧
    ∀ s, gtab_dipy2dmipy gtab ≠ .ok s := by
  have herr : gtab_dipy2dmipy gtab =
      .error (.incompleteAcquisitionError incompleteGtabMsg) := by
    rcases gtab with ⟨bvals, bvecs, sd, bd⟩
    rcases h with ⟨h1, h2⟩ | ⟨h1, h2⟩
    · simp only at h1
      subst h1
      cases bd with
      | none => rfl
      | some D => rfl
    · simp only at h2
      subst h2
      cases sd with
      | none => rfl
      | some d => rfl
  exact ⟨herr, fun s hok => absurd (herr ▸ hok) (by simp)⟩

/-- Witness for C6: a table with only the pulse separation set. -/
theorem C6_witness :
    ((DipyGradientTable.mk [] [] none (some 1)).small_delta = none ∧
      (DipyGradientTable.mk [] [] none (some 1)).big_delta ≠ none) ∧
    gtab_dipy2dmipy (DipyGradientTable.mk [] [] none (some 1)) =
      .error (.incompleteAcquisitionError incompleteGtabMsg) :=
  ⟨⟨rfl, by simp⟩,
   (C6_incomplete_gtab (DipyGradientTable.mk [] [] none (some 1))
     (Or.inl ⟨rfl, by simp⟩)).1⟩

/-- C7: the unit converter fails with DomainError on non-physical timing
and on partial timing, in which case the scheme construction is aborted;
with valid timing it maps bvalue 0 to exactly 0; over its whole domain it
returns either an error or a value, never a sentinel. -/
theorem C7_domain_errors :
    (∀ b g : ℝ, ∀ d D : ℚ, D ≤ d / 3 →
      bvalue_to_gradient_strength b (some d) (some D) g =
        .error (.domainError nonPhysicalTimingMsg)) ∧
    (∀ b g : ℝ, ∀ od oD : Option ℚ, od = none ∨ oD = none →
      bvalue_to_gradient_strength b od oD g =
        .error (.domainError timingMissingMsg)) ∧
    (∀ g : ℝ, ∀ d D : ℚ, d / 3 < D →
      bvalue_to_gradient_strength 0 (some d) (some D) g = .ok 0) ∧
    (∀ bvals : List ℚ, ∀ dirs : List Vec3, ∀ od oD : Option ℚ,
      ∀ te : Option (List ℚ), ∀ e : SchemeError,
      checkTiming od oD = .error e → ¬(od = none ∧ oD = none) →
      ∀ s, acquisition_scheme_core bvals dirs od oD te ≠ .ok s) ∧
    (∀ b g : ℝ, ∀ od oD : Option ℚ,
      (∃ e, bvalue_to_gradient_strength b od oD g = .error e) ∨
      (∃ G, bvalue_to_gradient_strength b od oD g = .ok G)) := by
  refine ⟨?_, ?_, ?_, ?_, ?_⟩
  · intro b g d D hle
    simp [bvalue_to_gradient_strength, checkTiming, hle]
  · intro b g od oD h
    rcases h with h | h
    · subst h
      cases oD <;> rfl
    · subst h
      cases od <;> rfl
  · intro g d D hlt
    simp [bvalue_to_gradient_strength, checkTiming, not_le.mpr hlt,
      bvalue_to_gradient_strength_val]
  · intro bvals dirs od oD te e hck hnn s hok
    obtain ⟨_, _, _, _, _, _, _, _, _, htm⟩ := core_ok_inv hok
    rcases htm with ⟨hn1, hn2⟩ | ⟨d, D, hod, hoD, hlt⟩
    · exact hnn ⟨hn1, hn2⟩
    · rw [hod, hoD] at hck
      rw [show checkTiming (some d) (some D) = .ok (d, D) from by
        simp [checkTiming, not_le.mpr hlt]] at hck
      exact absurd hck (by simp)
  · intro b g od oD
    cases od with
    | none => exact Or.inl ⟨_, rfl⟩
    | some d =>
      cases oD with
      | none => exact Or.inl ⟨_, rfl⟩
      | some D =>
        by_cases hle : D ≤ d / 3
        · exact Or.inl ⟨SchemeError.domainError nonPhysicalTimingMsg,
            by simp [bvalue_to_gradient_strength, checkTiming, hle]⟩
        · exact Or.inr
            ⟨bvalue_to_gradient_strength_val b (d : ℝ) (D : ℝ) g,
             by simp [bvalue_to_gradient_strength, checkTiming, hle]⟩

/-- Witness for C7: concrete non-physical timing, partial timing, and
the zero bvalue case. -/
theorem C7_witness :
    ((431 : ℚ) / 10000 ≤ 1 / 3 ∧
      bvalue_to_gradient_strength 5 (some (1 : ℚ)) (some (431 / 10000)) 2 =
        .error (.domainError nonPhysicalTimingMsg)) ∧
    bvalue_to_gradient_strength 5 none (some (1 : ℚ)) 2 =
      .error (.domainError timingMissingMsg) ∧
    ((106 : ℚ) / 10000 / 3 < 431 / 10000 ∧
      bvalue_to_gradient_strength 0 (some ((106 : ℚ) / 10000))
        (some (431 / 10000)) 2 = .ok 0) := by
  refine ⟨⟨by norm_num, ?_⟩, ?_, ⟨by norm_num, ?_⟩⟩
  · exact C7_domain_errors.1 5 2 1 (431 / 10000) (by norm_num)
  · exact C7_domain_errors.2.1 5 2 none (some 1) (Or.inl rfl)
  · exact C7_domain_errors.2.2.1 2 (106 / 10000) (431 / 10000) (by norm_num)

/-- C8: the derived quantities gradient_strength, qvalue and tau are
present or absent as a group, determined by whether both timing
parameters were supplied; untimed construction still succeeds with the
identical shell assignment, and the gradient_strengths accessor then
reports the none sentinel, which differs from an all-zero array. -/
theorem C8_derived_availability :
    (∀ s : Scheme,
      (s.gradient_strengths.isSome ∧ s.qvalues.isSome ∧ s.tau.isSome) ∨
      (s.gradient_strengths = none ∧ s.qvalues = none ∧ s.tau = none)) ∧
    (∀ bvals : List ℚ, ∀ dirs : List Vec3, ∀ te : Option (List ℚ),
      ∀ delta bigDelta : Option ℚ, ∀ s : Scheme,
      acquisition_scheme_core bvals dirs delta bigDelta te = .ok s →
      (s.gradient_strengths.isSome ↔ delta.isSome ∧ bigDelta.isSome)) ∧
    (∀ bvals : List ℚ, ∀ dirs : List Vec3, ∀ te : Option (List ℚ),
      ∀ d D : ℚ, ∀ s : Scheme,
      acquisition_scheme_core bvals dirs (some d) (some D) te = .ok s →
      ∃ s2, acquisition_scheme_core bvals dirs none none te = .ok s2 ∧
        s2.shell_indices = s.shell_indices ∧
        s2.gradient_strengths = none ∧ s2.qvalues = none ∧ s2.tau = none ∧
        ∀ n : ℕ, s2.gradient_strengths ≠ some (List.replicate n 0)) := by
  refine ⟨?_, ?_, ?_⟩
  · intro s
    rcases s with ⟨bv, gd, od, oD, te, si⟩
    cases od <;> cases oD <;>
      simp [Scheme.gradient_strengths, Scheme.qvalues, Scheme.tau]
  · intro bvals dirs te delta bigDelta s h
    obtain ⟨_, _, _, _, _, _, _, sdelta, sD, htm⟩ := core_ok_inv h
    rcases htm with ⟨hd, hD⟩ | ⟨d, D, hd, hD, _⟩
    · rw [hd] at sdelta
      rw [hD] at sD
      simp [Scheme.gradient_strengths, sdelta, sD, hd, hD]
    · rw [hd] at sdelta
      rw [hD] at sD
      simp [Scheme.gradient_strengths, sdelta, sD, hd, hD]
  · intro bvals dirs te d D s h
    obtain ⟨h1, h2, h3, _, _, _, ssh, _, _, _⟩ := core_ok_inv h
    refine ⟨⟨bvals, dirs, none, none, te, shell_indices b0Eps shellTol bvals⟩,
      core_untimed_ok h1 h2 h3, ?_, rfl, rfl, rfl,
      fun n => by simp [Scheme.gradient_strengths]⟩
    rw [ssh]

/-- Witness for C8 at the small concrete input. -/
theorem C8_witness :
    acquisition_scheme_core wBvals wDirs (some wd) (some wD) none =
      .ok wScheme ∧
    ∃ s2, acquisition_scheme_core wBvals wDirs none none none = .ok s2 ∧
      s2.shell_indices = wScheme.shell_indices ∧
      s2.gradient_strengths = none ∧ s2.qvalues = none ∧ s2.tau = none ∧
      ∀ n : ℕ, s2.gradient_strengths ≠ some (List.replicate n 0) :=
  ⟨wConstructTimed,
   C8_derived_availability.2.2 wBvals wDirs none wd wD wScheme
     wConstructTimed⟩

/-- C9: the dipy gradient-table conversion with both timing parameters
present is exactly the raw-array construction applied to the bvalues
multiplied by 1e6 (the s/mm2 to s/m2 unit conversion) with the same
directions and timing. -/
theorem C9_gtab_unit_conversion (bvals : List ℚ) (bvecs : List Vec3)
    (d D : ℚ) :
    gtab_dipy2dmipy ⟨bvals, bvecs, some d, some D⟩ =
      acquisition_scheme_from_bvalues (bvals.map (fun b => b * 1000000))
        bvecs (some d) (some D) := rfl

/-- C10: schemes built from bvalues or from a dipy gradient table carry
no TE (the summary shows N/A); only a scheme imported from a schemefile
carries a concrete TE; with the HCP timing the default TE written on
export is 0.0653 seconds, i.e. 65.3 ms, per row. -/
theorem C10_TE_absent_until_schemefile :
    (∀ bvals : List ℚ, ∀ dirs : List Vec3, ∀ delta bigDelta : Option ℚ,
      ∀ s : Scheme,
      acquisition_scheme_from_bvalues bvals dirs delta bigDelta = .ok s →
      s.TE = none ∧ s.teShowsNA = true) ∧
    (∀ gtab : DipyGradientTable, ∀ s : Scheme,
      gtab_dipy2dmipy gtab = .ok s → s.TE = none ∧ s.teShowsNA = true) ∧
    (∀ rows : List SchemeRow, ∀ s : Scheme,
      acquisition_scheme_from_schemefile rows = .ok s →
      ∃ tes, s.TE = some tes ∧ s.teShowsNA = false) ∧
    (∀ s : Scheme, ∀ rows : List SchemeRow,
      s.delta = some (106 / 10000) → s.bigDelta = some (431 / 10000) →
      s.TE = none → to_schemefile s = .ok rows →
      ∀ r ∈ rows, r.TE = 653 / 10000) := by
  have part1 : ∀ bvals : List ℚ, ∀ dirs : List Vec3,
      ∀ delta bigDelta : Option ℚ, ∀ s : Scheme,
      acquisition_scheme_from_bvalues bvals dirs delta bigDelta = .ok s →
      s.TE = none ∧ s.teShowsNA = true := by
    intro bvals dirs delta bigDelta s h
    obtain ⟨_, _, _, _, _, hTE, _⟩ := core_ok_inv h
    exact ⟨hTE, by simp [Scheme.teShowsNA, hTE]⟩
  refine ⟨part1, ?_, ?_, ?_⟩
  · intro gtab s h
    rcases gtab with ⟨bv, bvec, sd, bd⟩
    cases sd with
    | none =>
      cases bd with
      | none => exact absurd h (by simp [gtab_dipy2dmipy])
      | some D => exact absurd h (by simp [gtab_dipy2dmipy])
    | some d =>
      cases bd with
      | none => exact absurd h (by simp [gtab_dipy2dmipy])
      | some D => exact part1 _ _ _ _ s h
  · intro rows s h
    cases rows with
    | nil => exact absurd h (by simp [acquisition_scheme_from_schemefile])
    | cons r rest =>
      simp only [acquisition_scheme_from_schemefile] at h
      obtain ⟨_, _, _, _, _, hTE, _⟩ := core_ok_inv h
      exact ⟨_, hTE, by simp [Scheme.teShowsNA, hTE]⟩
  · intro s rows hd hD hTE hexp r hr
    simp only [to_schemefile, hd, hD, exportTEs, hTE,
      Except.ok.injEq] at hexp
    rw [← hexp] at hr
    have := zipWith_row_TE_mem (106 / 10000) (431 / 10000) _ _ r hr
    rw [List.mem_replicate] at this
    rw [this.2]
    norm_num

/-- Witness for C10: the small scheme carries no TE whether built from
bvalues or from the dipy table; its schemefile round trip materializes
TE = 0.0653 s on every row and the re-imported scheme carries a TE. -/
theorem C10_witness :
    (acquisition_scheme_from_bvalues wBvals wDirs (some wd) (some wD) =
      .ok wScheme ∧ wScheme.TE = none ∧ wScheme.teShowsNA = true) ∧
    (gtab_dipy2dmipy wGtab = .ok wScheme ∧ wScheme.TE = none ∧
      wScheme.teShowsNA = true) ∧
    (∃ rows s2, acquisition_scheme_from_schemefile rows = .ok s2 ∧
      ∃ tes, s2.TE = some tes ∧ s2.teShowsNA = false) ∧
    (∃ rows, to_schemefile wScheme = .ok rows ∧
      ∀ r ∈ rows, r.TE = 653 / 10000) := by
  refine ⟨⟨wConstructTimed,
    C10_TE_absent_until_schemefile.1 wBvals wDirs (some wd) (some wD)
      wScheme wConstructTimed⟩,
    ⟨wGtabOk,
     C10_TE_absent_until_schemefile.2.1 wGtab wScheme wGtabOk⟩, ?_, ?_⟩
  · obtain ⟨hTEn, rows, s2, hexp, hmap, himp, _, _, _, _, _⟩ :=
      schemefile_roundtrip wConstructTimed (by simp [wBvals])
    exact ⟨rows, s2, himp,
      C10_TE_absent_until_schemefile.2.2.1 rows s2 himp⟩
  · obtain ⟨hTEn, rows, s2, hexp, hmap, himp, _, _, _, _, _⟩ :=
      schemefile_roundtrip wConstructTimed (by simp [wBvals])
    exact ⟨rows, hexp,
      C10_TE_absent_until_schemefile.2.2.2 wScheme rows rfl rfl rfl hexp⟩

end Dmipy
